import Mathlib

/-!
Verification development for the `backup_tools` repository.

Two programs are modelled:
* `cloud_backup.py` (Pipeline A): per-file stage-copy / checksum / encrypt /
  upload pipeline working inside a process-id-keyed cache directory.
* `rsync_backup.py` (Pipeline B): incremental snapshot driver with a marker
  file, a pid lock file with liveness probing, a last-good pointer file and a
  single differential-sync invocation.

External tools (md5sum, gpg, rclone, rsync) are opaque: their exit statuses
are supplied by oracles in the environment records.  Each run is embedded as a
function from arguments and environment to an exit status plus a trace of
filesystem/subprocess events, translated statement by statement from the
Python source.
-/

/-! ### Shared string helpers (Python `str` operations on `String.data`) -/

/-- Python `s.lstrip(c)` for a single character: drop the leading run. -/
def lstripChar (c : Char) (s : String) : String :=
  String.mk (s.data.dropWhile (· = c))

/-- Python `s.rstrip(c)` for a single character: drop the trailing run. -/
def rstripChar (c : Char) (s : String) : String :=
  String.mk ((s.data.reverse.dropWhile (· = c)).reverse)

/-- Python `s.replace(old, new)` for single characters. -/
def replaceChar (old new : Char) (s : String) : String :=
  String.mk (s.data.map (fun c => if c = old then new else c))

/-- Python `os.path.join a b` for the non-absolute second components used by
the scripts. -/
def pjoin (a b : String) : String := a ++ "/" ++ b

/-- Code-point lexicographic comparison of char lists; this is the order
Python's `list.sort()` uses on strings. -/
def charListLe : List Char → List Char → Bool
  | [], _ => true
  | _ :: _, [] => false
  | a :: as, b :: bs => if a = b then charListLe as bs else decide (a < b)

/-- Python string `<=` (code-point lexicographic). -/
def strLe (a b : String) : Bool := charListLe a.data b.data

/-- Python `list.sort()` on a list of strings. -/
def sortStrings (l : List String) : List String :=
  l.insertionSort (fun a b => strLe a b = true)

/-! ### Pipeline A: `cloud_backup.py` -/

/-- Command-line arguments of `cloud_backup.py` (argparse block, lines
39-49).  `cachedir`/`passphrase` are `none` when the flag was not given. -/
structure ArgsA where
  debug : Bool
  demon : Bool
  dryrun : Bool
  keepcache : Bool
  cachedir : Option String
  passphrase : Option String
  src : String
  dest : String
deriving Repr, DecidableEq

/-- Ambient environment of one `cloud_backup.py` run: the process environment,
the pid, the filesystem-existence probe used for the cache-conflict check, the
listing of the source directory, and exit-status oracles for the external
tools (md5sum, gpg, rclone) keyed by the file name they are invoked on. -/
structure EnvA where
  environ : String → Option String
  pid : Nat
  pathExists : String → Bool
  listing : List String
  md5ok : String → Bool
  encOk : String → Bool
  upOk : String → Bool

/-- Python truthiness of `os.environ.get(...)` / argparse results: `None` and
the empty string are falsy. -/
def truthy : Option String → Bool
  | none => false
  | some s => s != ""

/-- `x if x else (y if y else None)` — the resolution pattern of lines 70 and
79 of `cloud_backup.py` (environment value first, flag as fallback). -/
def resolveOpt (env arg : Option String) : Option String :=
  if truthy env then env else if truthy arg then arg else none

/-- One observable step of a `cloud_backup.py` run.  File names are relative
to the per-run cache directory (the process `chdir`s into it); `copyIn n`
reads `<src>/n` and writes cache file `n`; `md5invoke` records the checksum
tool's exit status; `manifestAppend` is the append to `md5sums.txt`;
`encrypt s d ok` is the gpg call reading cache file `s` and writing cache
file `d`; `upload n ok` is the rclone call shipping cache file `n` to the
destination sink; `unlink n` is an `os.unlink` call on cache file `n`
(deleting it when present — the epilogue's call on a manifest that was never
created raises `FileNotFoundError` and ends the run with a nonzero
status). -/
inductive EvA where
  | mkdirCache
  | chdirCache
  | copyIn (name : String)
  | md5invoke (name : String) (ok : Bool)
  | manifestAppend (name : String)
  | encrypt (srcName destName : String) (ok : Bool)
  | upload (name : String) (ok : Bool)
  | unlink (name : String)
  | chdirBack
  | rmdirCache
deriving Repr, DecidableEq

/-- Body of the `for srcfile in srcfiles` loop (lines 101-137) for one entry:
returns the events of this iteration and `true` when the loop continues
(`false` models the `exit(1)` inside `md5sum` on a nonzero checksum
status). -/
def perFile (a : ArgsA) (e : EnvA) (f : String) : List EvA × Bool :=
  if f = "md5sums.txt" then ([], true)
  else
    let destfile := f ++ ".gpg"
    let m1 := e.md5ok f
    let evs1 := [EvA.copyIn f, EvA.md5invoke f m1]
    if m1 = false then (evs1, false)
    else
      let m2 := e.md5ok destfile
      let evs2 := evs1 ++ [EvA.manifestAppend f,
        EvA.encrypt f destfile (e.encOk f), EvA.md5invoke destfile m2]
      if m2 = false then (evs2, false)
      else
        let evs3 := evs2 ++ [EvA.manifestAppend destfile]
          ++ (if a.keepcache then [] else [EvA.unlink f])
          ++ (if a.dryrun then [] else [EvA.upload destfile (e.upOk destfile)])
          ++ (if a.keepcache then [] else [EvA.unlink destfile])
        (evs3, true)

/-- The whole per-file loop; stops at the first aborting iteration. -/
def loopA (a : ArgsA) (e : EnvA) : List String → List EvA × Bool
  | [] => ([], true)
  | f :: rest =>
    let r := perFile a e f
    if r.2 then
      let r2 := loopA a e rest
      (r.1 ++ r2.1, r2.2)
    else (r.1, false)

/-- Whether a trace has written the manifest file: `md5sums.txt` is created
by the first successful `md5sum` call (the append inside `md5sum`, lines
16-17) and by nothing else. -/
def manifestMade (tr : List EvA) : Bool :=
  tr.any (fun ev => match ev with
    | EvA.manifestAppend _ => true
    | _ => false)

/-- The whole `cloud_backup.py` run: config resolution (lines 66-82), cache
staging (lines 84-94), the per-file loop (96-137) and the manifest shipping /
teardown epilogue (139-148).  Returns the process exit status and the event
trace.  In the epilogue, `os.unlink('md5sums.txt')` (line 143) raises
`FileNotFoundError` when no entry was processed (the manifest was never
created), so that run dies with a nonzero status before the chdir-back and
the cache-directory removal. -/
def runA (a : ArgsA) (e : EnvA) : Nat × List EvA :=
  match resolveOpt (e.environ "CLOUDBACKUP_PASSPHRASE") a.passphrase with
  | none => (1, [])
  | some _ =>
    match resolveOpt (e.environ "CLOUDBACKUP_CACHEDIR") a.cachedir with
    | none => (1, [])
    | some cd =>
      let cachepath := pjoin cd (toString e.pid)
      if e.pathExists cachepath then (1, [])
      else
        let pre := [EvA.mkdirCache, EvA.chdirCache]
        let r := loopA a e (sortStrings e.listing)
        if r.2 = false then (1, pre ++ r.1)
        else
          let shipped :=
            if a.dryrun then [] else [EvA.upload "md5sums.txt" (e.upOk "md5sums.txt")]
          if a.keepcache then (0, pre ++ r.1 ++ shipped ++ [EvA.chdirBack])
          else
            if manifestMade r.1 then
              (0, pre ++ r.1 ++ shipped
                ++ [EvA.unlink "md5sums.txt", EvA.chdirBack, EvA.rmdirCache])
            else
              (1, pre ++ r.1 ++ shipped ++ [EvA.unlink "md5sums.txt"])

/-- Names shipped to the destination sink, in order (the `rclone copy`
invocations of a trace). -/
def uploadsOf (tr : List EvA) : List String :=
  tr.filterMap (fun ev => match ev with
    | EvA.upload n _ => some n
    | _ => none)

/-- Filesystem locations a `cloud_backup.py` run can touch: an entry of the
source directory, a file inside the per-run cache directory, the cache
directory itself, or the destination sink. -/
inductive APath where
  | sourceEntry (name : String)
  | cacheFile (name : String)
  | cacheDir
  | sink
deriving Repr, DecidableEq

/-- Locations written or deleted by one event (traced from the system calls
each Python statement performs; `md5invoke` only reads its argument, the
manifest write is the separate `manifestAppend` event). -/
def writesOf : EvA → List APath
  | EvA.mkdirCache => [APath.cacheDir]
  | EvA.chdirCache => []
  | EvA.copyIn n => [APath.cacheFile n]
  | EvA.md5invoke _ _ => []
  | EvA.manifestAppend _ => [APath.cacheFile "md5sums.txt"]
  | EvA.encrypt _ d _ => [APath.cacheFile d]
  | EvA.upload _ _ => [APath.sink]
  | EvA.unlink n => [APath.cacheFile n]
  | EvA.chdirBack => []
  | EvA.rmdirCache => [APath.cacheDir]

/-- Locations read by one event. -/
def readsOf : EvA → List APath
  | EvA.mkdirCache => []
  | EvA.chdirCache => []
  | EvA.copyIn n => [APath.sourceEntry n]
  | EvA.md5invoke n _ => [APath.cacheFile n]
  | EvA.manifestAppend _ => []
  | EvA.encrypt s _ _ => [APath.cacheFile s]
  | EvA.upload n _ => [APath.cacheFile n]
  | EvA.unlink _ => []
  | EvA.chdirBack => []
  | EvA.rmdirCache => []

/-- A location that is not under the source directory. -/
def notSource : APath → Bool
  | APath.sourceEntry _ => false
  | _ => true

/-! ### Pipeline B: `rsync_backup.py` -/

/-- A UTC wall-clock time at second granularity, as produced by
`datetime.datetime.utcnow()`. -/
structure DateTime where
  year : Nat
  month : Nat
  day : Nat
  hour : Nat
  minute : Nat
  second : Nat
deriving Repr, DecidableEq

/-- The decimal digit characters `'0'`-`'9'`. -/
def digitChar (d : Nat) : Char := Char.ofNat (48 + d)

/-- Zero-padded fixed-width decimal rendering: `padChars w n` is the `w`
low-order decimal digits of `n`, most significant first (for `n < 10 ^ w`
this is `n` zero-padded to width `w`). -/
def padChars : Nat → Nat → List Char
  | 0, _ => []
  | w + 1, n => digitChar (n / 10 ^ w) :: padChars w (n % 10 ^ w)

/-- Character list of `datetime.isoformat(timespec='seconds')`:
`YYYY-MM-DDTHH:MM:SS`. -/
def isoChars (t : DateTime) : List Char :=
  padChars 4 t.year ++ '-' ::
    (padChars 2 t.month ++ '-' ::
      (padChars 2 t.day ++ 'T' ::
        (padChars 2 t.hour ++ ':' ::
          (padChars 2 t.minute ++ ':' :: padChars 2 t.second))))

/-- `datetime.isoformat(timespec='seconds')` as a string. -/
def isoFormat (t : DateTime) : String := String.mk (isoChars t)

/-- Bounds satisfied by every timestamp `utcnow()` can return (4-digit year,
calendar month/day, 24h clock). -/
def validDT (t : DateTime) : Prop :=
  t.year ≤ 9999 ∧ 1 ≤ t.month ∧ t.month ≤ 12 ∧ 1 ≤ t.day ∧ t.day ≤ 31 ∧
    t.hour ≤ 23 ∧ t.minute ≤ 59 ∧ t.second ≤ 59

instance (t : DateTime) : Decidable (validDT t) := by
  unfold validDT; infer_instance

/-- Chronological key of a timestamp: strictly monotone in time for valid
timestamps (each field weighs more than everything after it). -/
def dtKey (t : DateTime) : Nat :=
  ((((t.year * 100 + t.month) * 100 + t.day) * 100 + t.hour) * 100
      + t.minute) * 100 + t.second

/-- `':' in src` (Python substring test for a single character). -/
def hasColon (s : String) : Bool := s.data.contains ':'

/-- `get_label` of `rsync_backup.py` (lines 38-48), with `utcnow()` and
`gethostname()` passed in as parameters. -/
def get_label (hostname : String) (now : DateTime) (argsrc : String) : String :=
  let dt := isoFormat now
  let src := replaceChar '/' '_' (lstripChar '/' argsrc)
  if hasColon src then src ++ "_" ++ dt
  else hostname ++ "_" ++ src ++ "_" ++ dt

/-- The label the main program computes for `args.src`: line 75 strips the
trailing slashes before `get_label` is called at line 116. -/
def mainLabel (hostname : String) (now : DateTime) (argsrc : String) : String :=
  get_label hostname now (rstripChar '/' argsrc)

/-- The sanitized source exactly as the spec words it: leading and trailing
path separators stripped, remaining (interior) separators replaced with
underscores. -/
def sanitizeSpec (s : String) : String :=
  String.mk
    ((((s.data.dropWhile (· = '/')).reverse.dropWhile (· = '/')).reverse).map
      (fun c => if c = '/' then '_' else c))

/-- Command-line arguments of `rsync_backup.py` (argparse block, lines
51-58). -/
structure ArgsB where
  debug : Bool
  demon : Bool
  dryrun : Bool
  src : String
  dest : String
deriving Repr, DecidableEq

/-- Ambient environment of one `rsync_backup.py` run: whether the
`rsync_backup.marker` file exists at the destination root, the pid recorded
in an existing `rsync_backup.pid` lock file (`none` when absent), the
liveness probe (`os.kill(pid, SIGUSR1)` succeeding), whether
`rsync_backup.exclude` exists, the content of `rsync_backup.lastgood`
(`none` when absent), this process's pid, the hostname, the current UTC
time, and the exit status the rsync invocation will return. -/
structure EnvB where
  markerExists : Bool
  lockContent : Option Nat
  alive : Nat → Bool
  excludeExists : Bool
  lastgood : Option String
  mypid : Nat
  hostname : String
  now : DateTime
  rsyncExit : Nat

/-- One observable step of a `rsync_backup.py` run (writes of the lock file
and last-good pointer at the destination root, the rsync invocation, and the
final lock removal). -/
inductive EvB where
  | writeLock (pid : Nat)
  | runRsync (cmd : List String)
  | writeLastgood (label : String)
  | removeLock
deriving Repr, DecidableEq

/-- The rsync command line built at lines 120-135. -/
def buildRsync (a : ArgsB) (e : EnvB) (src dest label : String) : List String :=
  let base := ["rsync", "-D", "--numeric-ids", "--links", "--hard-links",
    "--one-file-system", "--itemize-changes", "--times", "--perms",
    "--recursive", "--owner", "--group", "--stats", "--human-readable",
    "--quiet"]
  let c1 := base ++ (if a.dryrun then ["--dry-run"] else [])
  let c2 := c1 ++ (match e.lastgood with
    | some lg => ["--link-dest=" ++ pjoin dest lg]
    | none => [])
  let c3 := c2 ++ (if e.excludeExists then
    ["--exclude-from=" ++ pjoin dest "rsync_backup.exclude"] else [])
  (c3 ++ ["--log-file=" ++ pjoin dest label ++ ".log"]) ++ [src, pjoin dest label]

/-- The whole `rsync_backup.py` run: marker check (lines 78-82), lock-file
check with liveness probe (84-100), lock acquisition (103), label and
command construction (105-137), the sync invocation, the conditional
last-good update (140-144) and the lock removal (146).  Returns the process
exit status and the event trace. -/
def runB (a : ArgsB) (e : EnvB) : Nat × List EvB :=
  let src := rstripChar '/' a.src
  let dest := rstripChar '/' a.dest
  if e.markerExists = false then (1, [])
  else
    let locked := match e.lockContent with
      | some p => e.alive p
      | none => false
    if locked then (2, [])
    else
      let label := get_label e.hostname e.now src
      let cmd := buildRsync a e src dest label
      let tr := [EvB.writeLock e.mypid, EvB.runRsync cmd]
        ++ (if e.rsyncExit = 0 then [EvB.writeLastgood label] else [])
        ++ [EvB.removeLock]
      (0, tr)

/-- Contents of the two state-bearing files at the destination root. -/
structure BFiles where
  lock : Option Nat
  lastgood : Option String
deriving Repr, DecidableEq

/-- Effect of one event on the destination-root files. -/
def applyEvB (st : BFiles) : EvB → BFiles
  | EvB.writeLock p => { st with lock := some p }
  | EvB.runRsync _ => st
  | EvB.writeLastgood l => { st with lastgood := some l }
  | EvB.removeLock => { st with lock := none }

/-- Destination-root files after replaying a trace against the initial
environment. -/
def afterB (e : EnvB) (tr : List EvB) : BFiles :=
  tr.foldl applyEvB ⟨e.lockContent, e.lastgood⟩

/-! ### Auxiliary predicates and concrete fixtures -/

/-- Every non-manifest entry of `l` gets exit status 0 from the checksum tool,
both for its plaintext and for its ciphertext copy. -/
def allOk (e : EnvA) (l : List String) : Prop :=
  ∀ f ∈ l, f ≠ "md5sums.txt" → e.md5ok f = true ∧ e.md5ok (f ++ ".gpg") = true

instance (e : EnvA) (l : List String) : Decidable (allOk e l) := by
  unfold allOk; infer_instance

/-- An event whose writes and deletions all avoid the source directory. -/
def writeOkA (ev : EvA) : Bool := (writesOf ev).all notSource

/-- Drop a leading run of characters satisfying `p` (Python `lstrip`). -/
def dropLead (p : Char → Bool) (l : List Char) : List Char := l.dropWhile p

/-- Drop a trailing run of characters satisfying `p` (Python `rstrip`). -/
def dropTrail (p : Char → Bool) (l : List Char) : List Char :=
  (l.reverse.dropWhile p).reverse

/-- Fixture: a dry-run invocation of `rsync_backup.py`. -/
def aB1 : ArgsB := ⟨false, false, true, "/data/", "/backup"⟩

/-- Fixture: valid destination, no lock, a previous last-good label `old`,
and an rsync invocation that exits 0. -/
def eB1 : EnvB :=
  ⟨true, none, fun _ => false, false, some "old", 42, "host", ⟨2024, 1, 2, 3, 4, 5⟩, 0⟩

/-- Fixture: a default `rsync_backup.py` invocation. -/
def aB4 : ArgsB := ⟨false, false, false, "/srv/stuff", "/backup"⟩

/-- Fixture: valid destination with no lock file. -/
def eB4 : EnvB :=
  ⟨true, none, fun _ => false, false, none, 7, "h", ⟨2024, 1, 1, 0, 0, 0⟩, 0⟩

/-- Fixture: valid destination, no lock file, rsync failing with status 5. -/
def eB9 : EnvB :=
  ⟨true, none, fun _ => false, true, some "prev", 9, "h", ⟨2023, 12, 31, 23, 59, 58⟩, 5⟩

/-- Fixture: a plain `cloud_backup.py` invocation (no dry-run, no
keep-cache), passphrase and cache dir given by flags. -/
def aA2 : ArgsA :=
  ⟨false, false, false, false, some "/c", some "p", "/srcdir", "remote:bk"⟩

/-- Fixture: two source files where the checksum tool fails on `a.txt`. -/
def eA2 : EnvA :=
  ⟨fun _ => none, 1, fun _ => false, ["a.txt", "b.txt"],
    fun f => f != "a.txt", fun _ => true, fun _ => true⟩

/-- Fixture: no `--cachedir` flag, passphrase from the environment. -/
def aA3 : ArgsA := ⟨false, false, false, false, none, none, "/srcdir", "remote:bk"⟩

/-- Fixture: environment carrying the documented variable name
`CLOUDBACKUP_CACHE` (plus the passphrase), over a one-file source
directory with all tools succeeding. -/
def eA3 : EnvA :=
  ⟨fun k => if k = "CLOUDBACKUP_CACHE" then some "/cache"
    else if k = "CLOUDBACKUP_PASSPHRASE" then some "pp" else none,
    1, fun _ => false, ["a.txt"], fun _ => true, fun _ => true, fun _ => true⟩

/-- Fixture: same environment but with the name the code actually reads,
`CLOUDBACKUP_CACHEDIR`. -/
def eA3b : EnvA :=
  ⟨fun k => if k = "CLOUDBACKUP_CACHEDIR" then some "/cache"
    else if k = "CLOUDBACKUP_PASSPHRASE" then some "pp" else none,
    1, fun _ => false, ["a.txt"], fun _ => true, fun _ => true, fun _ => true⟩

/-- Fixture: an unsorted two-file source directory with all tools
succeeding. -/
def eA6 : EnvA :=
  ⟨fun _ => none, 3, fun _ => false, ["b.txt", "a.txt"],
    fun _ => true, fun _ => true, fun _ => true⟩

/-- Fixture: an environment whose cache-conflict probe reports the pid
directory as already existing. -/
def eA7 : EnvA :=
  ⟨fun _ => none, 5, fun _ => true, ["a.txt"],
    fun _ => true, fun _ => true, fun _ => true⟩

/-- Fixture: a dry-run invocation of `cloud_backup.py`. -/
def aA10 : ArgsA :=
  ⟨false, false, true, false, some "/c", some "p", "/srcdir", "remote:bk"⟩

/-- Fixture: a source directory with one regular file and a stray
`md5sums.txt`, all tools succeeding. -/
def eA10 : EnvA :=
  ⟨fun _ => none, 11, fun _ => false, ["a.txt", "md5sums.txt"],
    fun _ => true, fun _ => true, fun _ => true⟩

/-- Fixture: two timestamps one second apart. -/
def t5a : DateTime := ⟨2024, 5, 6, 7, 8, 9⟩

/-- Fixture: the later of the two timestamps. -/
def t5b : DateTime := ⟨2024, 5, 6, 7, 8, 10⟩

/-- The staging events one completed iteration performs for a non-manifest
entry `f` (in a run whose checksum invocations succeed and which does not
keep the cache): stage-copy into the cache, checksum, manifest append,
encrypt, checksum of the ciphertext, manifest append, and deletion of both
cache copies. -/
def stageEvents (e : EnvA) (f : String) : List EvA :=
  [EvA.copyIn f, EvA.md5invoke f true, EvA.manifestAppend f,
    EvA.encrypt f (f ++ ".gpg") (e.encOk f), EvA.md5invoke (f ++ ".gpg") true,
    EvA.manifestAppend (f ++ ".gpg"), EvA.unlink f, EvA.unlink (f ++ ".gpg")]

/-! ### Theorems -/

/-- Claim C1 (code_bug evidence): on a dry-run whose rsync invocation exits
with status 0, `rsync_backup.py` still overwrites the last-good pointer with
this run's label — the update at line 141 is guarded only by the exit
status, not by the `--dryrun` flag, while the claim (and the flag's own help
text) says a dry-run never updates the pointer. -/
theorem rsync_dryrun_updates_lastgood_bug :
    aB1.dryrun = true ∧ eB1.rsyncExit = 0 ∧ eB1.lastgood = some "old" ∧
    (afterB eB1 (runB aB1 eB1).2).lastgood = some "host_data_2024-01-02T03:04:05" ∧
    (afterB eB1 (runB aB1 eB1).2).lastgood ≠ eB1.lastgood := by
  decide

/-- Claim C4: with the destination marker present, a lock file recording a
live pid makes the run exit with status 2 with an empty effect trace (so the
lock file is not rewritten and the last-good pointer is untouched); an
absent lock file or one recording a dead pid lets the run proceed (exit 0)
and write its own pid into the lock file. -/
theorem rsync_lock_protocol (a : ArgsB) (e : EnvB)
    (hm : e.markerExists = true) :
    ((∃ p, e.lockContent = some p ∧ e.alive p = true) →
      (runB a e).1 = 2 ∧ (runB a e).2 = [] ∧
        afterB e (runB a e).2 = ⟨e.lockContent, e.lastgood⟩) ∧
    ((∀ p, e.lockContent = some p → e.alive p = false) →
      (runB a e).1 = 0 ∧ EvB.writeLock e.mypid ∈ (runB a e).2) := by
  constructor
  · rintro ⟨p, hp, ha⟩
    simp [runB, hm, hp, ha, afterB]
  · intro hstale
    have hlocked : (match e.lockContent with
        | some p => e.alive p
        | none => false) = false := by
      cases h : e.lockContent with
      | none => rfl
      | some p => exact hstale p h
    simp [runB, hm, hlocked]

/-- Witness for C4: a concrete run against a marked destination with no lock
file proceeds with exit status 0 and writes its pid (7) into the lock
file. -/
theorem rsync_lock_protocol_witness :
    eB4.markerExists = true ∧
    (runB aB4 eB4).1 = 0 ∧ EvB.writeLock 7 ∈ (runB aB4 eB4).2 := by
  have h := (rsync_lock_protocol aB4 eB4 rfl).2 (fun p hp => nomatch hp)
  exact ⟨rfl, h.1, h.2⟩

/-- Claim C9: a run that passes the marker and lock checks always removes
its lock file at the end — the final trace event is the lock removal and the
resulting lock state is `none` — even when rsync exits nonzero, in which
case the last-good pointer is left unchanged. -/
theorem rsync_lock_released (a : ArgsB) (e : EnvB)
    (hm : e.markerExists = true)
    (hstale : ∀ p, e.lockContent = some p → e.alive p = false) :
    (afterB e (runB a e).2).lock = none ∧
    (runB a e).2.getLast? = some EvB.removeLock ∧
    (e.rsyncExit ≠ 0 → (afterB e (runB a e).2).lastgood = e.lastgood) := by
  have hlocked : (match e.lockContent with
      | some p => e.alive p
      | none => false) = false := by
    cases h : e.lockContent with
    | none => rfl
    | some p => exact hstale p h
  by_cases hr : e.rsyncExit = 0 <;>
    simp [runB, hm, hlocked, hr, afterB, applyEvB]

/-- Witness for C9: a concrete run whose rsync invocation fails with status
5 still ends with the lock removed, and its last-good pointer still reads
`prev`. -/
theorem rsync_lock_released_witness :
    (afterB eB9 (runB aB4 eB9).2).lock = none ∧
    (runB aB4 eB9).2.getLast? = some EvB.removeLock ∧
    (afterB eB9 (runB aB4 eB9).2).lastgood = some "prev" := by
  have h := rsync_lock_released aB4 eB9 rfl (fun p hp => nomatch hp)
  exact ⟨h.1, h.2.1, h.2.2 (by decide)⟩

/-- The per-file loop completes when every entry's checksum invocations
succeed. -/
lemma loopA_ok (a : ArgsA) (e : EnvA) :
    ∀ l, allOk e l → (loopA a e l).2 = true
  | [], _ => rfl
  | f :: rest, h => by
    have hrest : allOk e rest := fun g hg hgm => h g (List.mem_cons_of_mem f hg) hgm
    by_cases hf : f = "md5sums.txt"
    · simp [loopA, perFile, hf, loopA_ok a e rest hrest]
    · obtain ⟨h1, h2⟩ := h f (List.mem_cons_self f rest) hf
      simp [loopA, perFile, hf, h1, h2, loopA_ok a e rest hrest]

/-- A nonzero checksum status anywhere in the list makes the loop abort. -/
lemma loopA_abort (a : ArgsA) (e : EnvA) :
    ∀ l, (∃ f ∈ l, f ≠ "md5sums.txt" ∧
        (e.md5ok f = false ∨ e.md5ok (f ++ ".gpg") = false)) →
      (loopA a e l).2 = false
  | [], h => absurd h (by simp)
  | f :: rest, h => by
    obtain ⟨g, hg, hgm, hgf⟩ := h
    by_cases hf : f = "md5sums.txt"
    · have hgrest : g ∈ rest := by
        rcases List.mem_cons.mp hg with hgf2 | hr
        · exact absurd (hgf2.trans hf) hgm
        · exact hr
      simp [loopA, perFile, hf, loopA_abort a e rest ⟨g, hgrest, hgm, hgf⟩]
    · cases hm1 : e.md5ok f with
      | false => simp [loopA, perFile, hf, hm1]
      | true =>
        cases hm2 : e.md5ok (f ++ ".gpg") with
        | false => simp [loopA, perFile, hf, hm1, hm2]
        | true =>
          have hgrest : g ∈ rest := by
            rcases List.mem_cons.mp hg with hgf2 | hr
            · subst hgf2
              rcases hgf with h' | h' <;> simp_all
            · exact hr
          simp [loopA, perFile, hf, hm1, hm2,
            loopA_abort a e rest ⟨g, hgrest, hgm, hgf⟩]

/-- Neither whether the loop completes nor whether it has written the
manifest depends on the encryption and upload oracles. -/
lemma loopA_flag_indep (a : ArgsA) (e : EnvA) (g1 g2 : String → Bool) :
    ∀ l, (loopA a { e with encOk := g1, upOk := g2 } l).2 = (loopA a e l).2 ∧
      manifestMade (loopA a { e with encOk := g1, upOk := g2 } l).1
        = manifestMade (loopA a e l).1
  | [] => ⟨rfl, rfl⟩
  | f :: rest => by
    obtain ⟨ih2, ih1⟩ := loopA_flag_indep a e g1 g2 rest
    by_cases hf : f = "md5sums.txt"
    · simp [loopA, perFile, hf, ih2, ih1]
    · cases hm1 : e.md5ok f with
      | false => simp [loopA, perFile, hf, hm1, manifestMade]
      | true =>
        cases hm2 : e.md5ok (f ++ ".gpg") with
        | false => simp [loopA, perFile, hf, hm1, hm2, manifestMade]
        | true =>
          cases hk : a.keepcache <;> cases hd : a.dryrun <;>
            simp [loopA, perFile, hf, hm1, hm2, hk, hd, ih2, ih1,
              manifestMade, List.any_append]

/-- Claim C2 (amended): once the run reaches the per-file loop, a nonzero
exit status from the checksum tool on any entry aborts the whole run with
exit status 1 (the `exit(1)` inside `md5sum`), while the exit statuses of
the encryption and upload tools never affect the run's own exit status. -/
theorem cloud_md5_failure_aborts (a : ArgsA) (e : EnvA) (pp cd : String)
    (hpp : resolveOpt (e.environ "CLOUDBACKUP_PASSPHRASE") a.passphrase = some pp)
    (hcd : resolveOpt (e.environ "CLOUDBACKUP_CACHEDIR") a.cachedir = some cd)
    (hconf : e.pathExists (pjoin cd (toString e.pid)) = false) :
    ((∃ f ∈ e.listing, f ≠ "md5sums.txt" ∧
        (e.md5ok f = false ∨ e.md5ok (f ++ ".gpg") = false)) →
      (runA a e).1 = 1) ∧
    (∀ g1 g2, (runA a { e with encOk := g1, upOk := g2 }).1 = (runA a e).1) := by
  constructor
  · intro hfail
    obtain ⟨g, hg, hgm, hgf⟩ := hfail
    have hsort : g ∈ sortStrings e.listing := by
      unfold sortStrings
      exact (List.perm_insertionSort _ e.listing).mem_iff.mpr hg
    have habort := loopA_abort a e (sortStrings e.listing) ⟨g, hsort, hgm, hgf⟩
    simp [runA, hpp, hcd, hconf, habort]
  · intro g1 g2
    obtain ⟨hflag, hman⟩ := loopA_flag_indep a e g1 g2 (sortStrings e.listing)
    cases hl : (loopA a e (sortStrings e.listing)).2 with
    | false => simp [runA, hpp, hcd, hconf, hflag, hl]
    | true =>
      cases hk : a.keepcache with
      | true => simp [runA, hpp, hcd, hconf, hflag, hl, hk]
      | false =>
        cases hm : manifestMade (loopA a e (sortStrings e.listing)).1 with
        | false => simp [runA, hpp, hcd, hconf, hflag, hl, hk, hman, hm]
        | true => simp [runA, hpp, hcd, hconf, hflag, hl, hk, hman, hm]

/-- Witness for the amended C2: a concrete run in which the checksum tool
fails on `a.txt` exits with status 1. -/
theorem cloud_md5_failure_aborts_witness :
    (∃ f ∈ eA2.listing, f ≠ "md5sums.txt" ∧
      (eA2.md5ok f = false ∨ eA2.md5ok (f ++ ".gpg") = false)) ∧
    (runA aA2 eA2).1 = 1 := by
  have h := (cloud_md5_failure_aborts aA2 eA2 "p" "/c" rfl rfl rfl).1 (by decide)
  exact ⟨by decide, h⟩

/-- Counterexample for C2 as stated: in the same concrete run the loop does
NOT continue to the next entry — `b.txt` (which sorts after the failing
`a.txt`) is never even copied into the cache, and the process exits with
status 1. -/
theorem cloud_md5_continue_counterexample :
    "b.txt" ∈ eA2.listing ∧ eA2.md5ok "a.txt" = false ∧
    (runA aA2 eA2).1 = 1 ∧ EvA.copyIn "b.txt" ∉ (runA aA2 eA2).2 := by
  decide

/-- Claim C3 (code_bug evidence): the spec and the `--cachedir` help text
both name the override variable `CLOUDBACKUP_CACHE`, but line 77 reads
`CLOUDBACKUP_CACHEDIR`: with `CLOUDBACKUP_CACHE` set (and no flag) the run
dies with exit status 1 and an empty trace, while the undocumented
`CLOUDBACKUP_CACHEDIR` makes the same run proceed. -/
theorem cloud_cache_env_var_bug :
    eA3.environ "CLOUDBACKUP_CACHE" = some "/cache" ∧ aA3.cachedir = none ∧
    runA aA3 eA3 = (1, []) ∧
    eA3b.environ "CLOUDBACKUP_CACHEDIR" = some "/cache" ∧
    (runA aA3 eA3b).1 = 0 := by
  decide

/-- Claim C7: once the passphrase and cache directory have resolved, an
already-existing `<cacheDirectory>/<pid>` path makes the run exit with
status 1 with an empty trace (nothing created, removed or processed); when
the path is free, the run's first two actions are creating the directory
and changing into it. -/
theorem cloud_cache_conflict (a : ArgsA) (e : EnvA) (pp cd : String)
    (hpp : resolveOpt (e.environ "CLOUDBACKUP_PASSPHRASE") a.passphrase = some pp)
    (hcd : resolveOpt (e.environ "CLOUDBACKUP_CACHEDIR") a.cachedir = some cd) :
    (e.pathExists (pjoin cd (toString e.pid)) = true → runA a e = (1, [])) ∧
    (e.pathExists (pjoin cd (toString e.pid)) = false →
      (runA a e).2.take 2 = [EvA.mkdirCache, EvA.chdirCache]) := by
  constructor
  · intro hex
    simp [runA, hpp, hcd, hex]
  · intro hex
    cases hl : (loopA a e (sortStrings e.listing)).2 with
    | false => simp [runA, hpp, hcd, hex, hl, List.take]
    | true =>
      cases hk : a.keepcache with
      | true => simp [runA, hpp, hcd, hex, hl, hk, List.take]
      | false =>
        cases hm : manifestMade (loopA a e (sortStrings e.listing)).1 <;>
          simp [runA, hpp, hcd, hex, hl, hk, hm, List.take]

/-- Witness for C7: a concrete run that finds its pid cache directory
already present exits 1 without any filesystem event. -/
theorem cloud_cache_conflict_witness :
    eA7.pathExists (pjoin "/c" (toString eA7.pid)) = true ∧
    runA aA2 eA7 = (1, []) := by
  have h := (cloud_cache_conflict aA2 eA7 "p" "/c" rfl rfl).1 rfl
  exact ⟨rfl, h⟩


/-- Every event of one loop iteration writes and deletes only inside the
cache or the sink. -/
lemma perFile_writes (a : ArgsA) (e : EnvA) (f : String) :
    ((perFile a e f).1).all writeOkA = true := by
  by_cases hf : f = "md5sums.txt" <;>
    cases hm1 : e.md5ok f <;>
    cases hm2 : e.md5ok (f ++ ".gpg") <;>
    cases hk : a.keepcache <;>
    cases hd : a.dryrun <;>
    simp [perFile, hf, hm1, hm2, hk, hd, writeOkA, writesOf, notSource]

/-- Every event of the whole loop writes and deletes only inside the cache
or the sink. -/
lemma loopA_writes (a : ArgsA) (e : EnvA) :
    ∀ l, ((loopA a e l).1).all writeOkA = true
  | [] => rfl
  | f :: rest => by
    cases hc : (perFile a e f).2 with
    | false => simp [loopA, hc, perFile_writes a e f]
    | true =>
      simp [loopA, hc, List.all_append, perFile_writes a e f,
        loopA_writes a e rest]

/-- Claim C8: for every run of `cloud_backup.py`, every write and every
deletion in the trace targets the cache directory or the destination sink —
no entry of the source directory is ever mutated or deleted (source entries
appear only as read locations, in the stage-copy). -/
theorem cloud_frame (a : ArgsA) (e : EnvA) :
    ((runA a e).2).all writeOkA = true := by
  unfold runA
  have hloop := loopA_writes a e (sortStrings e.listing)
  cases resolveOpt (e.environ "CLOUDBACKUP_PASSPHRASE") a.passphrase with
  | none => rfl
  | some pp =>
    cases resolveOpt (e.environ "CLOUDBACKUP_CACHEDIR") a.cachedir with
    | none => rfl
    | some cd =>
      cases hex : e.pathExists (pjoin cd (toString e.pid)) with
      | true => simp [hex]
      | false =>
        cases hl : (loopA a e (sortStrings e.listing)).2 with
        | false => simp [hex, hl, hloop, writeOkA, writesOf, notSource]
        | true =>
          cases hk : a.keepcache with
          | true =>
            cases hd : a.dryrun <;>
              simp [hex, hl, hk, hd, hloop, writeOkA, writesOf, notSource]
          | false =>
            cases hm : manifestMade (loopA a e (sortStrings e.listing)).1 <;>
              cases hd : a.dryrun <;>
              simp [hex, hl, hk, hm, hd, hloop, writeOkA, writesOf, notSource]

/-- `uploadsOf` distributes over trace concatenation. -/
lemma uploadsOf_append (x y : List EvA) :
    uploadsOf (x ++ y) = uploadsOf x ++ uploadsOf y :=
  List.filterMap_append x y _

/-- Unfolding of the loop when the head iteration continues. -/
lemma loopA_cons_ok (a : ArgsA) (e : EnvA) (f : String) (rest : List String)
    (hc : (perFile a e f).2 = true) :
    loopA a e (f :: rest) =
      ((perFile a e f).1 ++ (loopA a e rest).1, (loopA a e rest).2) := by
  simp [loopA, hc]

/-- A non-manifest entry whose two checksum invocations succeed completes
its iteration. -/
lemma perFile_continues (a : ArgsA) (e : EnvA) (f : String)
    (hf : f ≠ "md5sums.txt") (h1 : e.md5ok f = true)
    (h2 : e.md5ok (f ++ ".gpg") = true) :
    (perFile a e f).2 = true := by
  simp [perFile, hf, h1, h2]

/-- With dry-run off, a completing non-manifest iteration ships exactly the
entry's ciphertext. -/
lemma perFile_uploads (a : ArgsA) (e : EnvA) (f : String)
    (hd : a.dryrun = false) (hf : f ≠ "md5sums.txt")
    (h1 : e.md5ok f = true) (h2 : e.md5ok (f ++ ".gpg") = true) :
    uploadsOf (perFile a e f).1 = [f ++ ".gpg"] := by
  cases hk : a.keepcache <;> simp [perFile, hf, h1, h2, hk, hd, uploadsOf]

/-- With dry-run on, no iteration ships anything. -/
lemma perFile_uploads_dry (a : ArgsA) (e : EnvA) (f : String)
    (hd : a.dryrun = true) :
    uploadsOf (perFile a e f).1 = [] := by
  by_cases hf : f = "md5sums.txt" <;>
    cases hm1 : e.md5ok f <;>
    cases hm2 : e.md5ok (f ++ ".gpg") <;>
    cases hk : a.keepcache <;>
    simp [perFile, hf, hm1, hm2, hk, hd, uploadsOf]

/-- With dry-run off and the checksum tool succeeding throughout, the loop
ships exactly the ciphertexts of the non-manifest entries, in list order. -/
lemma loopA_uploads (a : ArgsA) (e : EnvA) (hd : a.dryrun = false) :
    ∀ l, allOk e l →
      uploadsOf (loopA a e l).1 =
        (l.filter (fun f => f != "md5sums.txt")).map (fun f => f ++ ".gpg")
  | [], _ => rfl
  | f :: rest, h => by
    have hrest : allOk e rest := fun g hg hgm => h g (List.mem_cons_of_mem f hg) hgm
    by_cases hf : f = "md5sums.txt"
    · have hc : (perFile a e f).2 = true := by simp [perFile, hf]
      rw [loopA_cons_ok a e f rest hc]
      have hpe : uploadsOf (perFile a e f).1 = [] := by simp [perFile, hf, uploadsOf]
      simp only [uploadsOf_append, hpe, List.nil_append,
        loopA_uploads a e hd rest hrest]
      simp [List.filter_cons, hf]
    · obtain ⟨h1, h2⟩ := h f (List.mem_cons_self f rest) hf
      rw [loopA_cons_ok a e f rest (perFile_continues a e f hf h1 h2)]
      simp only [uploadsOf_append, perFile_uploads a e f hd hf h1 h2,
        loopA_uploads a e hd rest hrest]
      simp [List.filter_cons, hf]

/-- With dry-run on, the loop ships nothing at all (whether or not it
aborts). -/
lemma loopA_uploads_dry (a : ArgsA) (e : EnvA) (hd : a.dryrun = true) :
    ∀ l, uploadsOf (loopA a e l).1 = []
  | [] => rfl
  | f :: rest => by
    cases hc : (perFile a e f).2 with
    | false => simp [loopA, hc, perFile_uploads_dry a e f hd]
    | true =>
      simp [loopA, hc, uploadsOf_append, perFile_uploads_dry a e f hd,
        loopA_uploads_dry a e hd rest]

/-- The code-point order on char lists is total. -/
lemma charListLe_total : ∀ l1 l2 : List Char,
    charListLe l1 l2 = true ∨ charListLe l2 l1 = true
  | [], _ => Or.inl rfl
  | _ :: _, [] => Or.inr rfl
  | a :: as, b :: bs => by
    by_cases hab : a = b
    · subst hab
      rcases charListLe_total as bs with h | h <;> simp [charListLe, h]
    · rcases lt_or_gt_of_ne hab with h | h
      · left; simp [charListLe, hab, h]
      · right; simp [charListLe, Ne.symm hab, h]

/-- The code-point order on char lists is transitive. -/
lemma charListLe_trans : ∀ l1 l2 l3 : List Char,
    charListLe l1 l2 = true → charListLe l2 l3 = true → charListLe l1 l3 = true
  | [], _, _, _, _ => rfl
  | _ :: _, [], _, h1, _ => by simp [charListLe] at h1
  | _ :: _, _ :: _, [], _, h2 => by simp [charListLe] at h2
  | a :: as, b :: bs, c :: cs, h1, h2 => by
    by_cases hab : a = b <;> by_cases hbc : b = c
    · subst hab; subst hbc
      simp only [charListLe, if_pos rfl] at h1 h2 ⊢
      exact charListLe_trans as bs cs h1 h2
    · subst hab
      simp only [charListLe, if_pos rfl] at h1
      simp [charListLe, hbc] at h2 ⊢
      exact h2
    · subst hbc
      simp [charListLe, hab] at h1 ⊢
      exact h1
    · simp [charListLe, hab] at h1
      simp [charListLe, hbc] at h2
      have hac : a < c := lt_trans h1 h2
      simp [charListLe, ne_of_lt hac, hac]

/-- Sorting preserves the all-checksums-succeed property. -/
lemma allOk_sort (e : EnvA) (l : List String) (h : allOk e l) :
    allOk e (sortStrings l) := by
  intro f hf hfm
  exact h f ((List.perm_insertionSort _ l).mem_iff.mp hf) hfm

/-- Claim C6: when the run reaches the loop with dry-run off and the
checksum tool succeeding on every entry, the destination sink receives
exactly the ciphertexts `<name>.gpg` of the non-`md5sums.txt` entries in the
sorted order, followed by `md5sums.txt` once, last; the processed order is a
lexicographically sorted permutation of the directory listing, and no
plaintext entry name is ever passed to the upload tool. -/
theorem cloud_upload_order (a : ArgsA) (e : EnvA) (pp cd : String)
    (hpp : resolveOpt (e.environ "CLOUDBACKUP_PASSPHRASE") a.passphrase = some pp)
    (hcd : resolveOpt (e.environ "CLOUDBACKUP_CACHEDIR") a.cachedir = some cd)
    (hconf : e.pathExists (pjoin cd (toString e.pid)) = false)
    (hd : a.dryrun = false)
    (hok : allOk e e.listing) :
    uploadsOf (runA a e).2 =
      ((sortStrings e.listing).filter (fun f => f != "md5sums.txt")).map
          (fun f => f ++ ".gpg")
        ++ ["md5sums.txt"] ∧
    (sortStrings e.listing).Perm e.listing ∧
    List.Sorted (fun f g => strLe f g = true) (sortStrings e.listing) := by
  have hl : (loopA a e (sortStrings e.listing)).2 = true :=
    loopA_ok a e (sortStrings e.listing) (allOk_sort e e.listing hok)
  refine ⟨?_, List.perm_insertionSort _ e.listing, ?_⟩
  · have hup : uploadsOf (runA a e).2 =
        uploadsOf (loopA a e (sortStrings e.listing)).1 ++ ["md5sums.txt"] := by
      cases hk : a.keepcache with
      | true =>
        have htr : (runA a e).2 =
            [EvA.mkdirCache, EvA.chdirCache]
              ++ ((loopA a e (sortStrings e.listing)).1
                ++ ([EvA.upload "md5sums.txt" (e.upOk "md5sums.txt")]
                  ++ [EvA.chdirBack])) := by
          simp [runA, hpp, hcd, hconf, hl, hd, hk]
        rw [htr]
        simp [uploadsOf, List.filterMap_append]
      | false =>
        cases hm : manifestMade (loopA a e (sortStrings e.listing)).1 with
        | false =>
          have htr : (runA a e).2 =
              [EvA.mkdirCache, EvA.chdirCache]
                ++ ((loopA a e (sortStrings e.listing)).1
                  ++ ([EvA.upload "md5sums.txt" (e.upOk "md5sums.txt")]
                    ++ [EvA.unlink "md5sums.txt"])) := by
            simp [runA, hpp, hcd, hconf, hl, hd, hk, hm]
          rw [htr]
          simp [uploadsOf, List.filterMap_append]
        | true =>
          have htr : (runA a e).2 =
              [EvA.mkdirCache, EvA.chdirCache]
                ++ ((loopA a e (sortStrings e.listing)).1
                  ++ ([EvA.upload "md5sums.txt" (e.upOk "md5sums.txt")]
                    ++ [EvA.unlink "md5sums.txt", EvA.chdirBack,
                      EvA.rmdirCache])) := by
            simp [runA, hpp, hcd, hconf, hl, hd, hk, hm]
          rw [htr]
          simp [uploadsOf, List.filterMap_append]
    rw [hup,
      loopA_uploads a e hd (sortStrings e.listing) (allOk_sort e e.listing hok)]
  · haveI : IsTotal String (fun a b => strLe a b = true) :=
      ⟨fun a b => charListLe_total a.data b.data⟩
    haveI : IsTrans String (fun a b => strLe a b = true) :=
      ⟨fun a b c => charListLe_trans a.data b.data c.data⟩
    exact List.sorted_insertionSort _ e.listing

/-- Witness for C6: the unsorted listing `b.txt, a.txt` results in the sink
receiving `a.txt.gpg`, `b.txt.gpg`, `md5sums.txt`, in that order. -/
theorem cloud_upload_order_witness :
    uploadsOf (runA aA2 eA6).2 = ["a.txt.gpg", "b.txt.gpg", "md5sums.txt"] := by
  have h := (cloud_upload_order aA2 eA6 "p" "/c" rfl rfl rfl rfl
    (by decide)).1
  rw [h]
  rfl

/-- A completed non-manifest iteration (keep-cache off) performs every
staging event, dry-run or not. -/
lemma perFile_stages (a : ArgsA) (e : EnvA) (f : String)
    (hk : a.keepcache = false) (hf : f ≠ "md5sums.txt")
    (h1 : e.md5ok f = true) (h2 : e.md5ok (f ++ ".gpg") = true) :
    ∀ ev ∈ stageEvents e f, ev ∈ (perFile a e f).1 := by
  intro ev hev
  simp [stageEvents] at hev
  cases hd : a.dryrun <;>
    simp [perFile, hf, h1, h2, hk, hd] <;>
    tauto

/-- Lifting `perFile_stages` through the loop. -/
lemma loopA_stages (a : ArgsA) (e : EnvA) (hk : a.keepcache = false) :
    ∀ l, allOk e l → ∀ f ∈ l, f ≠ "md5sums.txt" →
      ∀ ev ∈ stageEvents e f, ev ∈ (loopA a e l).1
  | [], _, f, hf, _, _, _ => absurd hf (by simp)
  | g :: rest, h, f, hf, hfm, ev, hev => by
    have hgc : (perFile a e g).2 = true := by
      by_cases hgm : g = "md5sums.txt"
      · simp [perFile, hgm]
      · obtain ⟨h1, h2⟩ := h g (List.mem_cons_self g rest) hgm
        exact perFile_continues a e g hgm h1 h2
    rw [loopA_cons_ok a e g rest hgc]
    rcases List.mem_cons.mp hf with rfl | hrest
    · obtain ⟨h1, h2⟩ := h f (List.mem_cons_self f rest) hfm
      exact List.mem_append_left _ (perFile_stages a e f hk hfm h1 h2 ev hev)
    · exact List.mem_append_right _
        (loopA_stages a e hk rest
          (fun x hx hxm => h x (List.mem_cons_of_mem g hx) hxm) f hrest hfm ev hev)

/-- Claim C10: with `--dryrun` set and `--keepcache` unset (checksum tool
succeeding throughout), every non-manifest source entry is still copied into
the cache, checksummed, encrypted and entered twice into the manifest, and
both its cache copies are still deleted; nothing at all is shipped to the
sink, and the manifest file is still deleted from the cache — so it is
destroyed without ever having been uploaded. -/
theorem cloud_dryrun_still_stages (a : ArgsA) (e : EnvA) (pp cd : String)
    (hpp : resolveOpt (e.environ "CLOUDBACKUP_PASSPHRASE") a.passphrase = some pp)
    (hcd : resolveOpt (e.environ "CLOUDBACKUP_CACHEDIR") a.cachedir = some cd)
    (hconf : e.pathExists (pjoin cd (toString e.pid)) = false)
    (hd : a.dryrun = true) (hk : a.keepcache = false)
    (hok : allOk e e.listing) :
    (∀ f ∈ e.listing, f ≠ "md5sums.txt" →
      ∀ ev ∈ stageEvents e f, ev ∈ (runA a e).2) ∧
    uploadsOf (runA a e).2 = [] ∧
    EvA.unlink "md5sums.txt" ∈ (runA a e).2 := by
  have hsok := allOk_sort e e.listing hok
  have hl := loopA_ok a e (sortStrings e.listing) hsok
  have hEx : ∃ tail, (runA a e).2 =
      [EvA.mkdirCache, EvA.chdirCache]
        ++ ((loopA a e (sortStrings e.listing)).1 ++ tail) ∧
      uploadsOf tail = [] ∧ EvA.unlink "md5sums.txt" ∈ tail := by
    cases hm : manifestMade (loopA a e (sortStrings e.listing)).1 with
    | false =>
      exact ⟨[EvA.unlink "md5sums.txt"],
        by simp [runA, hpp, hcd, hconf, hl, hd, hk, hm], rfl, by simp⟩
    | true =>
      exact ⟨[EvA.unlink "md5sums.txt", EvA.chdirBack, EvA.rmdirCache],
        by simp [runA, hpp, hcd, hconf, hl, hd, hk, hm], rfl, by simp⟩
  obtain ⟨tail, htr, hupt, hunl⟩ := hEx
  refine ⟨?_, ?_, ?_⟩
  · intro f hf hfm ev hev
    have hfs : f ∈ sortStrings e.listing :=
      (List.perm_insertionSort _ e.listing).mem_iff.mpr hf
    rw [htr]
    exact List.mem_append_right _ (List.mem_append_left _
      (loopA_stages a e hk (sortStrings e.listing) hsok f hfs hfm ev hev))
  · rw [htr, uploadsOf_append, uploadsOf_append,
      loopA_uploads_dry a e hd (sortStrings e.listing), hupt]
    rfl
  · rw [htr]
    exact List.mem_append_right _ (List.mem_append_right _ hunl)

/-- Witness for C10: a concrete dry-run still stage-copies `a.txt`, ships
nothing, and deletes the manifest. -/
theorem cloud_dryrun_still_stages_witness :
    EvA.copyIn "a.txt" ∈ (runA aA10 eA10).2 ∧
    uploadsOf (runA aA10 eA10).2 = [] ∧
    EvA.unlink "md5sums.txt" ∈ (runA aA10 eA10).2 := by
  have h := cloud_dryrun_still_stages aA10 eA10 "p" "/c" rfl rfl rfl rfl rfl
    (by decide)
  exact ⟨h.1 "a.txt" (by decide) (by decide) (EvA.copyIn "a.txt") (by decide),
    h.2.1, h.2.2⟩

/-- Digit characters are ordered like their digits. -/
lemma digit_lt : ∀ d1, d1 < 10 → ∀ d2, d2 < 10 → d1 < d2 →
    digitChar d1 < digitChar d2 := by decide

/-- A padded rendering has exactly its requested width. -/
lemma padChars_length : ∀ w n, (padChars w n).length = w
  | 0, _ => rfl
  | w + 1, n => by simp [padChars, padChars_length w]

/-- Zero-padded equal-width decimal renderings compare lexicographically
like their values. -/
lemma padChars_lex : ∀ w n m, n < m → m < 10 ^ w →
    List.Lex (· < ·) (padChars w n) (padChars w m)
  | 0, n, m, hnm, hb => by omega
  | w + 1, n, m, hnm, hb => by
    have hKpos : 0 < 10 ^ w := pow_pos (by norm_num) w
    have hb' : m < 10 * 10 ^ w := by
      have : (10 : Nat) ^ (w + 1) = 10 ^ w * 10 := pow_succ 10 w
      omega
    have hq2 : m / 10 ^ w < 10 := (Nat.div_lt_iff_lt_mul hKpos).mpr hb'
    have hq1 : n / 10 ^ w < 10 := (Nat.div_lt_iff_lt_mul hKpos).mpr (by omega)
    rcases Nat.lt_trichotomy (n / 10 ^ w) (m / 10 ^ w) with h | h | h
    · exact List.Lex.rel (digit_lt _ hq1 _ hq2 h)
    · have e1 := Nat.div_add_mod n (10 ^ w)
      have e2 := Nat.div_add_mod m (10 ^ w)
      have hlt : 10 ^ w * (n / 10 ^ w) + n % 10 ^ w
          < 10 ^ w * (m / 10 ^ w) + m % 10 ^ w := by rw [e1, e2]; exact hnm
      rw [h] at hlt
      have hmod : n % 10 ^ w < m % 10 ^ w := Nat.lt_of_add_lt_add_left hlt
      have hmb : m % 10 ^ w < 10 ^ w := Nat.mod_lt _ hKpos
      simp only [padChars, h]
      exact List.Lex.cons (padChars_lex w _ _ hmod hmb)
    · have := Nat.div_le_div_right (c := 10 ^ w) (Nat.le_of_lt hnm)
      omega

/-- A lexicographic comparison survives appending a common front. -/
lemma lexAppendSame : ∀ (c : List Char) {r1 r2 : List Char},
    List.Lex (· < ·) r1 r2 → List.Lex (· < ·) (c ++ r1) (c ++ r2)
  | [], _, _, h => h
  | _ :: c, _, _, h => List.Lex.cons (lexAppendSame c h)

/-- A lexicographic comparison between equal-length lists survives appending
arbitrary tails. -/
lemma lexAppendHead {l1 l2 : List Char} (h : List.Lex (· < ·) l1 l2) :
    l1.length = l2.length →
      ∀ x y : List Char, List.Lex (· < ·) (l1 ++ x) (l2 ++ y) := by
  induction h with
  | nil => intro hlen; simp at hlen
  | cons h ih => intro hlen x y; exact List.Lex.cons (ih (by simpa using hlen) x y)
  | rel hr => intro _ x y; exact List.Lex.rel hr

/-- String comparison via the lexicographic order on the underlying char
lists. -/
lemma strLt_of_lex {s t : String} (h : List.Lex (· < ·) s.data t.data) :
    s < t := by
  rw [String.lt_iff_toList_lt]
  exact h

/-- `YYYY-MM-DDTHH:MM:SS` renderings of valid timestamps compare
lexicographically like the timestamps themselves. -/
lemma isoChars_lex (t1 t2 : DateTime) (hv1 : validDT t1) (hv2 : validDT t2)
    (h : dtKey t1 < dtKey t2) :
    List.Lex (· < ·) (isoChars t1) (isoChars t2) := by
  obtain ⟨hy1, hmo1a, hmo1, hd1a, hd1, hh1, hmi1, hs1⟩ := hv1
  obtain ⟨hy2, hmo2a, hmo2, hd2a, hd2, hh2, hmi2, hs2⟩ := hv2
  have hcomp : t1.year < t2.year ∨ (t1.year = t2.year ∧ (t1.month < t2.month ∨
      (t1.month = t2.month ∧ (t1.day < t2.day ∨ (t1.day = t2.day ∧
      (t1.hour < t2.hour ∨ (t1.hour = t2.hour ∧ (t1.minute < t2.minute ∨
      (t1.minute = t2.minute ∧ t1.second < t2.second))))))))) := by
    unfold dtKey at h; omega
  unfold isoChars
  rcases hcomp with hy | ⟨hy, hmo | ⟨hmo, hd | ⟨hd, hh | ⟨hh, hmi | ⟨hmi, hs⟩⟩⟩⟩⟩
  · exact lexAppendHead
      (padChars_lex 4 _ _ hy (Nat.lt_of_le_of_lt hy2 (by norm_num)))
      (by rw [padChars_length, padChars_length]) _ _
  · rw [hy]
    exact lexAppendSame _ (List.Lex.cons (lexAppendHead
      (padChars_lex 2 _ _ hmo (Nat.lt_of_le_of_lt hmo2 (by norm_num)))
      (by rw [padChars_length, padChars_length]) _ _))
  · rw [hy, hmo]
    exact lexAppendSame _ (List.Lex.cons (lexAppendSame _ (List.Lex.cons
      (lexAppendHead (padChars_lex 2 _ _ hd (Nat.lt_of_le_of_lt hd2 (by norm_num)))
        (by rw [padChars_length, padChars_length]) _ _))))
  · rw [hy, hmo, hd]
    exact lexAppendSame _ (List.Lex.cons (lexAppendSame _ (List.Lex.cons
      (lexAppendSame _ (List.Lex.cons
        (lexAppendHead (padChars_lex 2 _ _ hh (Nat.lt_of_le_of_lt hh2 (by norm_num)))
          (by rw [padChars_length, padChars_length]) _ _))))))
  · rw [hy, hmo, hd, hh]
    exact lexAppendSame _ (List.Lex.cons (lexAppendSame _ (List.Lex.cons
      (lexAppendSame _ (List.Lex.cons (lexAppendSame _ (List.Lex.cons
        (lexAppendHead (padChars_lex 2 _ _ hmi (Nat.lt_of_le_of_lt hmi2 (by norm_num)))
          (by rw [padChars_length, padChars_length]) _ _))))))))
  · rw [hy, hmo, hd, hh, hmi]
    exact lexAppendSame _ (List.Lex.cons (lexAppendSame _ (List.Lex.cons
      (lexAppendSame _ (List.Lex.cons (lexAppendSame _ (List.Lex.cons
        (lexAppendSame _ (List.Lex.cons
          (padChars_lex 2 _ _ hs (Nat.lt_of_le_of_lt hs2 (by norm_num))))))))))))

/-- Unfolding a trailing strip over a cons cell. -/
lemma dropTrail_cons (p : Char → Bool) (c : Char) (l : List Char) :
    dropTrail p (c :: l) =
      if (dropTrail p l).isEmpty then (if p c then [] else [c])
      else c :: dropTrail p l := by
  unfold dropTrail
  rw [List.reverse_cons, List.dropWhile_append]
  have hiso : ((l.reverse.dropWhile p).reverse).isEmpty
      = (l.reverse.dropWhile p).isEmpty := by
    cases h : l.reverse.dropWhile p <;> simp [h]
  by_cases he : (l.reverse.dropWhile p).isEmpty
  · by_cases hc : p c <;> simp [he, hc, hiso, List.dropWhile]
  · simp [he, hiso, List.reverse_append]

/-- If the trailing strip removes everything then every element satisfied
the predicate. -/
lemma dropTrail_nil_all (p : Char → Bool) (l : List Char)
    (h : dropTrail p l = []) : ∀ x ∈ l, p x = true := by
  unfold dropTrail at h
  rw [List.reverse_eq_nil_iff, List.dropWhile_eq_nil_iff] at h
  intro x hx
  exact h x (List.mem_reverse.mpr hx)

/-- Stripping the leading run and stripping the trailing run commute — so
`lstrip` after `rstrip` (the source order) equals `rstrip` after `lstrip`
(the spec's leading/trailing order). -/
lemma trim_comm (p : Char → Bool) : ∀ l : List Char,
    dropLead p (dropTrail p l) = dropTrail p (dropLead p l)
  | [] => rfl
  | c :: l => by
    rw [dropTrail_cons]
    by_cases he : (dropTrail p l).isEmpty
    · have hnil : dropTrail p l = [] := by simpa [List.isEmpty_iff] using he
      by_cases hc : p c
      · have hlnil : dropLead p l = [] := by
          unfold dropLead
          rw [List.dropWhile_eq_nil_iff]
          exact dropTrail_nil_all p l hnil
        have h2 : dropLead p (c :: l) = dropLead p l := by
          simp [dropLead, List.dropWhile, hc]
        rw [if_pos he, if_pos hc, h2, hlnil]
        rfl
      · have h2 : dropLead p (c :: l) = c :: l := by
          simp [dropLead, List.dropWhile, hc]
        rw [if_pos he, h2, dropTrail_cons, if_pos he]
        simp [dropLead, List.dropWhile, hc]
    · by_cases hc : p c
      · have h1 : dropLead p (c :: dropTrail p l) = dropLead p (dropTrail p l) := by
          simp [dropLead, List.dropWhile, hc]
        have h2 : dropLead p (c :: l) = dropLead p l := by
          simp [dropLead, List.dropWhile, hc]
        rw [if_neg he, h1, h2, trim_comm p l]
      · have h1 : dropLead p (c :: dropTrail p l) = c :: dropTrail p l := by
          simp [dropLead, List.dropWhile, hc]
        have h2 : dropLead p (c :: l) = c :: l := by
          simp [dropLead, List.dropWhile, hc]
        rw [if_neg he, h1, h2, dropTrail_cons, if_neg he]

/-- The sanitizer the program applies (`rstrip` in the main block, then
`lstrip` and `replace` inside `get_label`) computes exactly the sanitized
source the spec describes. -/
lemma sanitize_eq (s : String) :
    replaceChar '/' '_' (lstripChar '/' (rstripChar '/' s)) = sanitizeSpec s := by
  unfold replaceChar lstripChar rstripChar sanitizeSpec
  congr 1
  congr 1
  exact trim_comm _ s.data

/-- Claim C5: the snapshot label for a source argument is built from the
sanitized source (leading/trailing slashes stripped, interior slashes
replaced by underscores): with a colon in the sanitized source the label is
`<sanitized>_<timestamp>` with no hostname, otherwise
`<hostname>_<sanitized>_<timestamp>`; and labels for the same source and
hostname at chronologically ordered valid timestamps sort
lexicographically in time order. -/
theorem rsync_label_spec (argsrc hostname : String) (t1 t2 : DateTime)
    (hv1 : validDT t1) (hv2 : validDT t2) :
    (hasColon (sanitizeSpec argsrc) = true →
      mainLabel hostname t1 argsrc = sanitizeSpec argsrc ++ "_" ++ isoFormat t1) ∧
    (hasColon (sanitizeSpec argsrc) = false →
      mainLabel hostname t1 argsrc =
        hostname ++ "_" ++ sanitizeSpec argsrc ++ "_" ++ isoFormat t1) ∧
    (dtKey t1 < dtKey t2 →
      mainLabel hostname t1 argsrc < mainLabel hostname t2 argsrc) := by
  refine ⟨?_, ?_, ?_⟩
  · intro hc
    simp only [mainLabel, get_label, sanitize_eq]
    rw [if_pos hc]
  · intro hc
    simp only [mainLabel, get_label, sanitize_eq]
    rw [if_neg (by simp [hc])]
  · intro hlt
    have hiso := isoChars_lex t1 t2 hv1 hv2 hlt
    simp only [mainLabel, get_label, sanitize_eq]
    by_cases hc : hasColon (sanitizeSpec argsrc) = true
    · rw [if_pos hc, if_pos hc]
      apply strLt_of_lex
      rw [String.data_append, String.data_append]
      exact lexAppendSame _ hiso
    · rw [if_neg hc, if_neg hc]
      apply strLt_of_lex
      rw [String.data_append, String.data_append]
      exact lexAppendSame _ hiso

/-- Witness for C5: the label for source `/data/docs/` on host `myhost` has
the hostname form, and the labels one second apart sort in time order. -/
theorem rsync_label_spec_witness :
    validDT t5a ∧ validDT t5b ∧ dtKey t5a < dtKey t5b ∧
    hasColon (sanitizeSpec "/data/docs/") = false ∧
    mainLabel "myhost" t5a "/data/docs/" =
      "myhost" ++ "_" ++ sanitizeSpec "/data/docs/" ++ "_" ++ isoFormat t5a ∧
    mainLabel "myhost" t5a "/data/docs/" < mainLabel "myhost" t5b "/data/docs/" := by
  have h := rsync_label_spec "/data/docs/" "myhost" t5a t5b (by decide) (by decide)
  exact ⟨by decide, by decide, by decide, by decide, h.2.1 (by decide),
    h.2.2 (by decide)⟩
